import Mathlib

/-!
Verification of the configuration-resolution and file-selection pipeline of
`packages/jscrambler-cli/src/bin/jscrambler.js`, shallowly embedded in Lean.

JavaScript runtime values that can show up in the CLI's configuration object
are modelled by `JSVal`; the flag/config/default merge (lines 90-134 of the
source), the glob-expansion loop (lines 142-188) and the dispatcher
(lines 190-279) are translated function by function.
-/

/-- Model of the JavaScript values that flow through the CLI configuration
object: `undefined`, `null`, `NaN`, booleans, (integer) numbers, strings and
arrays of strings. -/
inductive JSVal where
  | undef
  | null
  | nan
  | bool (b : Bool)
  | num (n : Int)
  | str (s : String)
  | arr (xs : List String)
deriving DecidableEq, Repr

/-- JavaScript truthiness of a `JSVal`. -/
def truthy : JSVal → Bool
  | .undef => false
  | .null => false
  | .nan => false
  | .bool b => b
  | .num n => n != 0
  | .str s => s != ""
  | .arr _ => true

/-- JavaScript `a || b` on modelled values. -/
def jsOr (a b : JSVal) : JSVal :=
  if truthy a then a else b

/-- JavaScript `a && b` on modelled values. -/
def jsAnd (a b : JSVal) : JSVal :=
  if truthy a then b else a

/-- JavaScript `String(v)` coercion for the modelled values. -/
def jsToString : JSVal → String
  | .undef => "undefined"
  | .null => "null"
  | .nan => "NaN"
  | .bool b => if b then "true" else "false"
  | .num n => toString n
  | .str s => s
  | .arr xs => String.intercalate "," xs

/-- ASCII lowercasing of one character (the case fold both `toLowerCase` and
the `/i` regexes of the source perform on the ASCII values they are fed). -/
def asciiLower (c : Char) : Char :=
  if 'A' ≤ c ∧ c ≤ 'Z' then Char.ofNat (c.toNat + 32) else c

/-- ASCII lowercasing of a string, character by character. -/
def lowerStr (s : String) : String :=
  String.mk (s.toList.map asciiLower)

/-- The natural number denoted by a list of decimal digits. -/
def toNatDigits (cs : List Char) : Nat :=
  cs.foldl (fun acc c => acc * 10 + (c.toNat - 48)) 0

/-- JavaScript `parseInt` on a string: skip leading whitespace, read an
optional sign and then leading decimal digits; `NaN` when no digit is read. -/
def parseIntDigits (s : String) : JSVal :=
  let cs := s.toList.dropWhile (fun c => c = ' ' || c = '\t' || c = '\n' || c = '\r')
  let signed : Int × List Char :=
    match cs with
    | '-' :: rest => (-1, rest)
    | '+' :: rest => (1, rest)
    | _ => (1, cs)
  let digits := signed.2.takeWhile Char.isDigit
  if digits = [] then .nan else .num (signed.1 * toNatDigits digits)

/-- JavaScript `parseInt(v)`: the argument is coerced to a string first. -/
def jsParseInt (v : JSVal) : JSVal :=
  parseIntDigits (jsToString v)

/-- Node's `path.extname`: the suffix of the last path component from its last
dot, empty when there is no dot or the only dot is leading (dotfiles), with
the `.` and `..` components special-cased. -/
def extname (p : String) : String :=
  let revNoSlash := (p.toList.reverse).dropWhile (fun c => c = '/')
  let revBase := revNoSlash.takeWhile (fun c => c ≠ '/')
  let base := revBase.reverse
  if base = ['.'] || base = ['.', '.'] then ""
  else
    let afterDotRev := revBase.takeWhile (fun c => c ≠ '.')
    if afterDotRev.length = revBase.length then ""
    else if afterDotRev.length + 1 = revBase.length then ""
    else String.mk ('.' :: afterDotRev.reverse)

instance {ε α : Type} [DecidableEq ε] [DecidableEq α] : DecidableEq (Except ε α)
  | .ok x, .ok y =>
    if h : x = y then .isTrue (congrArg Except.ok h)
    else .isFalse (fun hh => h (Except.ok.inj hh))
  | .ok _, .error _ => .isFalse (fun hh => Except.noConfusion hh)
  | .error _, .ok _ => .isFalse (fun hh => Except.noConfusion hh)
  | .error e, .error f =>
    if h : e = f then .isTrue (congrArg Except.error h)
    else .isFalse (fun hh => h (Except.error.inj hh))

/-- The fatal conditions the CLI can hit in the modelled pipeline; each one
prints a message and terminates the process. -/
inductive CliError where
  | invalidBool (option : String)
  | invalidThreshold
  | invalidVersion
  | zipCombined
  | patternNoMatch (p : String)
  | noFilesMatched
deriving DecidableEq, Repr

/-- Every fatal condition terminates the process with exit code 1
(`process.exit(1)` at each site in the source). -/
def exitCode (_ : CliError) : Nat := 1

/-- `validateBool` (source lines 14-20): the raw value must match
`/^(true|false)$/i`; on success the lowercased string is returned. -/
def validateBool (option : String) (val : String) : Except CliError String :=
  if lowerStr val = "true" || lowerStr val = "false" then .ok (lowerStr val)
  else .error (.invalidBool option)

/-- Modelled from the spec: the `filesize-parser` dependency is not under
`src/`; per §4.1 it accepts a numeric literal followed by an optional unit
among `b`, `kb`, `mb` (case-insensitive) and fails on anything else. `kb` and
`mb` use 1024-based multipliers. -/
def filesizeParser (s : String) : Option Int :=
  let cs := s.toList
  let digits := cs.takeWhile Char.isDigit
  let unit := (cs.drop digits.length).map asciiLower
  if digits = [] then none
  else
    let n : Int := toNatDigits digits
    if unit = [] ∨ unit = ['b'] then some n
    else if unit = ['k', 'b'] then some (n * 1024)
    else if unit = ['m', 'b'] then some (n * 1024 * 1024)
    else none

/-- `validateCodeHardeningThreshold` (source lines 22-33): run the filesize
parser on the (string-coerced) value; a parse failure is fatal. -/
def validateCodeHardeningThreshold (v : JSVal) : Except CliError Int :=
  match filesizeParser (jsToString v) with
  | some n => .ok n
  | none => .error .invalidThreshold

/-- The parsed command-line surface (the `commander` object after option
parsing). String-valued options hold the raw string when supplied;
`recommendedOrder`, `werror`, `tolerateMinification` and `useProfilingData`
hold the lowercased output of `validateBool`; `codeHardeningThreshold` holds
the byte count already produced by `validateCodeHardeningThreshold`;
`debugMode` is a bare boolean flag; `args` are the positional arguments. -/
structure Flags where
  accessKey : Option String := none
  secretKey : Option String := none
  host : Option String := none
  port : Option String := none
  protocol : Option String := none
  cafile : Option String := none
  outputDir : Option String := none
  applicationId : Option String := none
  randomizationSeed : Option String := none
  cwd : Option String := none
  sourceMaps : Option String := none
  recommendedOrder : Option String := none
  werror : Option String := none
  tolerateMinification : Option String := none
  useProfilingData : Option String := none
  jscramblerVersion : Option String := none
  codeHardeningThreshold : Option Int := none
  debugMode : Bool := false
  args : List String := []
deriving DecidableEq, Repr

/-- An option-string flag as the JavaScript value commander exposes:
the string when supplied, `undefined` when absent. -/
def optJS : Option String → JSVal
  | some s => .str s
  | none => JSVal.undef

/-- The nested `keys` object a config file may carry. -/
structure Keys where
  accessKey : JSVal := .undef
  secretKey : JSVal := .undef
deriving DecidableEq, Repr

/-- The configuration object: the shape shared by the loaded config file, the
built-in default object and the merged result. Absent fields are `undef`. -/
structure Config where
  keys : Option Keys := none
  accessKey : JSVal := .undef
  secretKey : JSVal := .undef
  host : JSVal := .undef
  port : JSVal := .undef
  protocol : JSVal := .undef
  cafile : JSVal := .undef
  filesDest : JSVal := .undef
  filesSrc : JSVal := .undef
  applicationId : JSVal := .undef
  randomizationSeed : JSVal := .undef
  cwd : JSVal := .undef
  useRecommendedOrder : JSVal := .undef
  tolerateMinification : JSVal := .undef
  werror : JSVal := .undef
  jscramblerVersion : JSVal := .undef
  debugMode : JSVal := .undef
  codeHardeningThreshold : JSVal := .undef
  useProfilingData : JSVal := .undef
  sourceMaps : JSVal := .undef
  params : JSVal := .undef
  applicationTypes : JSVal := .undef
  languageSpecifications : JSVal := .undef
  areSubscribersOrdered : JSVal := .undef
  proxy : JSVal := .undef
deriving DecidableEq, Repr

/-- One boolean-flag merge step (source lines 104-110 and 123-125):
`commander.x ? commander.x !== 'false' : config.x`. -/
def mergeBoolFlag (f c : JSVal) : JSVal :=
  if truthy f then .bool (!(f == JSVal.str "false")) else c

/-- The port merge (source lines 95-96):
`config.port = commander.port || config.port;`
`config.port = config.port && parseInt(config.port);`. -/
def mergePort (f c : JSVal) : JSVal :=
  let p := jsOr f c
  jsAnd p (jsParseInt p)

/-- The `codeHardeningThreshold` merge (source lines 114-121): an absent flag
falls back to validating a truthy config-file value (else `undefined`), a
supplied flag value — already validated by commander — is taken as is. -/
def mergeCHT (f : Option Int) (cv : JSVal) : Except CliError JSVal :=
  match f with
  | some n => .ok (.num n)
  | none =>
    if truthy cv then (validateCodeHardeningThreshold cv).map JSVal.num
    else .ok JSVal.undef

/-- The flag/config-file merge, source lines 90-125: every field of the
config object is overwritten by the corresponding flag-precedence rule. -/
def mergeConfig (fl : Flags) (c : Config) : Except CliError Config :=
  match mergeCHT fl.codeHardeningThreshold c.codeHardeningThreshold with
  | .error e => .error e
  | .ok cht => .ok { c with
      accessKey := jsOr (optJS fl.accessKey)
        (match c.keys with | some k => k.accessKey | none => .undef),
      secretKey := jsOr (optJS fl.secretKey)
        (match c.keys with | some k => k.secretKey | none => .undef),
      host := jsOr (optJS fl.host) c.host,
      port := mergePort (optJS fl.port) c.port,
      protocol := jsOr (optJS fl.protocol) c.protocol,
      cafile := jsOr (optJS fl.cafile) c.cafile,
      filesDest := jsOr (optJS fl.outputDir) c.filesDest,
      applicationId := jsOr (optJS fl.applicationId) c.applicationId,
      randomizationSeed := jsOr (optJS fl.randomizationSeed) c.randomizationSeed,
      cwd := jsOr (optJS fl.cwd) c.cwd,
      useRecommendedOrder := mergeBoolFlag (optJS fl.recommendedOrder) c.useRecommendedOrder,
      tolerateMinification := mergeBoolFlag (optJS fl.tolerateMinification) c.tolerateMinification,
      werror := mergeBoolFlag (optJS fl.werror) c.werror,
      jscramblerVersion := jsOr (optJS fl.jscramblerVersion) c.jscramblerVersion,
      debugMode := jsOr (if fl.debugMode then .bool true else .undef) c.debugMode,
      codeHardeningThreshold := cht,
      useProfilingData := mergeBoolFlag (optJS fl.useProfilingData) c.useProfilingData }

/-- Splitting a character list on a separator character, keeping empty
groups (the behavior `String.splitOn` has on single-character separators). -/
def splitOnChar (sep : Char) : List Char → List (List Char)
  | [] => [[]]
  | c :: rest =>
    if c = sep then [] :: splitOnChar sep rest
    else
      match splitOnChar sep rest with
      | [] => [[c]]
      | g :: gs => (c :: g) :: gs

/-- The version-format regex `^(?:\d+\.\d+(?:-f)?|stable|latest)$`
(source line 127) as a string predicate. -/
def versionRegexMatch (s : String) : Bool :=
  if s = "stable" || s = "latest" then true
  else
    let cs := s.toList
    let core :=
      match cs.reverse with
      | 'f' :: '-' :: restRev => restRev.reverse
      | _ => cs
    match splitOnChar '.' core with
    | [a, b] => !a.isEmpty && !b.isEmpty && a.all Char.isDigit && b.all Char.isDigit
    | _ => false

/-- `regex.test(config.jscramblerVersion)`: the tested value is coerced to a
string first. -/
def versionOk (v : JSVal) : Bool :=
  versionRegexMatch (jsToString v)

/-- The post-merge version check (source lines 127-132): fatal when the merged
`jscramblerVersion` is truthy and fails the regex, otherwise a no-op. -/
def checkVersion (c : Config) : Except CliError Config :=
  if truthy c.jscramblerVersion && !(versionOk c.jscramblerVersion) then
    .error .invalidVersion
  else .ok c

/-- One field of `lodash.defaults` (source line 134): the default value is
assigned only when the merged value is `undefined`. Modelled from the spec
(§4.2) for the `lodash.defaults` dependency, which is not under `src/`: the
default layer fills only missing fields and never overrides a
falsy-but-present value. -/
def defaultsField (m d : JSVal) : JSVal :=
  if m = .undef then d else m

/-- `lodash.defaults` applied to the `keys` object field. -/
def defaultsKeys (m d : Option Keys) : Option Keys :=
  match m with
  | some k => some k
  | none => d

/-- `config = defaults(config, _config)` (source line 134), field by field. -/
def applyDefaults (c d : Config) : Config :=
  { keys := defaultsKeys c.keys d.keys,
    accessKey := defaultsField c.accessKey d.accessKey,
    secretKey := defaultsField c.secretKey d.secretKey,
    host := defaultsField c.host d.host,
    port := defaultsField c.port d.port,
    protocol := defaultsField c.protocol d.protocol,
    cafile := defaultsField c.cafile d.cafile,
    filesDest := defaultsField c.filesDest d.filesDest,
    filesSrc := defaultsField c.filesSrc d.filesSrc,
    applicationId := defaultsField c.applicationId d.applicationId,
    randomizationSeed := defaultsField c.randomizationSeed d.randomizationSeed,
    cwd := defaultsField c.cwd d.cwd,
    useRecommendedOrder := defaultsField c.useRecommendedOrder d.useRecommendedOrder,
    tolerateMinification := defaultsField c.tolerateMinification d.tolerateMinification,
    werror := defaultsField c.werror d.werror,
    jscramblerVersion := defaultsField c.jscramblerVersion d.jscramblerVersion,
    debugMode := defaultsField c.debugMode d.debugMode,
    codeHardeningThreshold := defaultsField c.codeHardeningThreshold d.codeHardeningThreshold,
    useProfilingData := defaultsField c.useProfilingData d.useProfilingData,
    sourceMaps := defaultsField c.sourceMaps d.sourceMaps,
    params := defaultsField c.params d.params,
    applicationTypes := defaultsField c.applicationTypes d.applicationTypes,
    languageSpecifications := defaultsField c.languageSpecifications d.languageSpecifications,
    areSubscribersOrdered := defaultsField c.areSubscribersOrdered d.areSubscribersOrdered,
    proxy := defaultsField c.proxy d.proxy }

/-- The three-layer resolution of one simple scalar field (e.g. `host`):
`commander.x || config.x` followed by the defaults overlay. -/
def mergeScalar (f c d : JSVal) : JSVal :=
  defaultsField (jsOr f c) d

/-- The whole config-resolution stage: flag/config merge (lines 90-125),
version check (lines 127-132), then the defaults overlay (line 134). -/
def resolveConfig (fl : Flags) (c d : Config) : Except CliError Config :=
  match mergeConfig fl c with
  | .error e => .error e
  | .ok c1 =>
    match checkVersion c1 with
    | .error e => .error e
    | .ok c2 => .ok (applyDefaults c2 d)

/-- The glob-expansion loop body (source lines 145-179): `l` is
`globSrc.length`, `acc` the `filesSrc` accumulator. Each pattern first hits
the zip-exclusivity check, then is expanded through the glob environment
`fs`, then hits the strict-match (`werror`) check, and its matches are
appended. -/
def globLoop (fs : String → List String) (werror : Bool) (l : Nat) :
    List String → List String → Except CliError (List String)
  | [], acc => .ok acc
  | p :: rest, acc =>
    if extname p = ".zip" ∧ 1 < l then .error .zipCombined
    else
      if werror ∧ (fs p).length = 0 then .error (.patternNoMatch p)
      else globLoop fs werror l rest (acc ++ fs p)

/-- Expansion of a supplied pattern list (source lines 142-183): run the loop
and fail with "No files matched." when the accumulator ends up empty. -/
def resolveFilesSrc (fs : String → List String) (werror : Bool)
    (globSrc : List String) : Except CliError (List String) :=
  match globLoop fs werror globSrc.length globSrc [] with
  | .error e => .error e
  | .ok acc => if acc.length = 0 then .error .noFilesMatched else .ok acc

/-- The whole file-selection stage (source lines 136-188): positional
arguments win over the config `filesSrc`; when the selected `globSrc` is
missing or empty the resolution is skipped and `filesSrc` stays unset
(`none`). -/
def fileResolution (fs : String → List String) (werror : Bool)
    (args : List String) (configFilesSrc : JSVal) :
    Except CliError (Option (List String)) :=
  let globSrc := if 0 < args.length then JSVal.arr args else configFilesSrc
  match globSrc with
  | .arr ps =>
    if 0 < ps.length then
      match resolveFilesSrc fs werror ps with
      | .error e => .error e
      | .ok L => .ok (some L)
    else .ok none
  | _ => .ok none

/-- The flat concatenation of every pattern's matches, in pattern order. -/
def globMatches (fs : String → List String) (ps : List String) : List String :=
  (ps.map fs).flatten

/-- The request shape built for `jscrambler.downloadSourceMaps`
(source lines 221-233). -/
structure SourceMapsRequest where
  accessKey : JSVal
  secretKey : JSVal
  host : JSVal
  port : JSVal
  protocol : JSVal
  cafile : JSVal
  filesDest : JSVal
  filesSrc : JSVal
  protectionId : JSVal
deriving DecidableEq, Repr

/-- The request shape built for `jscrambler.protectAndDownload`
(source lines 242-272); `bail` is only attached when `werror` was defined. -/
structure ProtectRequest where
  accessKey : JSVal
  secretKey : JSVal
  host : JSVal
  port : JSVal
  protocol : JSVal
  cafile : JSVal
  applicationId : JSVal
  filesSrc : JSVal
  filesDest : JSVal
  params : JSVal
  applicationTypes : JSVal
  languageSpecifications : JSVal
  areSubscribersOrdered : JSVal
  cwd : JSVal
  sourceMaps : JSVal
  randomizationSeed : JSVal
  useRecommendedOrder : JSVal
  tolerateMinification : JSVal
  jscramblerVersion : JSVal
  debugMode : JSVal
  proxy : JSVal
  codeHardeningThreshold : JSVal
  useProfilingData : JSVal
  bail : Option JSVal
deriving DecidableEq, Repr

/-- Exactly one of the two remote requests is assembled per invocation. -/
inductive Request where
  | download (r : SourceMapsRequest)
  | protect (r : ProtectRequest)
deriving DecidableEq, Repr

/-- The names of the keys that can appear in either request object. -/
inductive RField where
  | accessKey | secretKey | host | port | protocol | cafile | applicationId
  | filesSrc | filesDest | params | applicationTypes | languageSpecifications
  | areSubscribersOrdered | cwd | sourceMaps | randomizationSeed
  | useRecommendedOrder | tolerateMinification | jscramblerVersion
  | debugMode | proxy | codeHardeningThreshold | useProfilingData
  | protectionId | bail
deriving DecidableEq, Repr

/-- Key lookup on an assembled request: `none` when the request object was
built without that key. -/
def Request.get : Request → RField → Option JSVal
  | .download r, .accessKey => some r.accessKey
  | .download r, .secretKey => some r.secretKey
  | .download r, .host => some r.host
  | .download r, .port => some r.port
  | .download r, .protocol => some r.protocol
  | .download r, .cafile => some r.cafile
  | .download r, .filesDest => some r.filesDest
  | .download r, .filesSrc => some r.filesSrc
  | .download r, .protectionId => some r.protectionId
  | .download _, _ => none
  | .protect r, .accessKey => some r.accessKey
  | .protect r, .secretKey => some r.secretKey
  | .protect r, .host => some r.host
  | .protect r, .port => some r.port
  | .protect r, .protocol => some r.protocol
  | .protect r, .cafile => some r.cafile
  | .protect r, .applicationId => some r.applicationId
  | .protect r, .filesSrc => some r.filesSrc
  | .protect r, .filesDest => some r.filesDest
  | .protect r, .params => some r.params
  | .protect r, .applicationTypes => some r.applicationTypes
  | .protect r, .languageSpecifications => some r.languageSpecifications
  | .protect r, .areSubscribersOrdered => some r.areSubscribersOrdered
  | .protect r, .cwd => some r.cwd
  | .protect r, .sourceMaps => some r.sourceMaps
  | .protect r, .randomizationSeed => some r.randomizationSeed
  | .protect r, .useRecommendedOrder => some r.useRecommendedOrder
  | .protect r, .tolerateMinification => some r.tolerateMinification
  | .protect r, .jscramblerVersion => some r.jscramblerVersion
  | .protect r, .debugMode => some r.debugMode
  | .protect r, .proxy => some r.proxy
  | .protect r, .codeHardeningThreshold => some r.codeHardeningThreshold
  | .protect r, .useProfilingData => some r.useProfilingData
  | .protect r, .bail => r.bail
  | .protect _, .protectionId => none

/-- The dispatcher (source lines 190-279): the destructured config plus the
resolved `filesSrc` and merged `params` are assembled into exactly one of the
two requests, selected by the truthiness of the `-m, --source-maps` flag.
The destructuring default `sourceMaps = false` applies only when the config
field is `undefined`; `bail` is set from `werror` only when `werror` is not
`undefined`. -/
def dispatch (cmdSourceMaps : JSVal) (cfg : Config) (filesSrc : JSVal)
    (params : JSVal) : Request :=
  if truthy cmdSourceMaps then
    .download {
      accessKey := cfg.accessKey, secretKey := cfg.secretKey,
      host := cfg.host, port := cfg.port, protocol := cfg.protocol,
      cafile := cfg.cafile, filesDest := cfg.filesDest,
      filesSrc := filesSrc, protectionId := cmdSourceMaps }
  else
    .protect {
      accessKey := cfg.accessKey, secretKey := cfg.secretKey,
      host := cfg.host, port := cfg.port, protocol := cfg.protocol,
      cafile := cfg.cafile, applicationId := cfg.applicationId,
      filesSrc := filesSrc, filesDest := cfg.filesDest, params := params,
      applicationTypes := cfg.applicationTypes,
      languageSpecifications := cfg.languageSpecifications,
      areSubscribersOrdered := cfg.areSubscribersOrdered, cwd := cfg.cwd,
      sourceMaps := if cfg.sourceMaps = .undef then .bool false else cfg.sourceMaps,
      randomizationSeed := cfg.randomizationSeed,
      useRecommendedOrder := cfg.useRecommendedOrder,
      tolerateMinification := cfg.tolerateMinification,
      jscramblerVersion := cfg.jscramblerVersion,
      debugMode := cfg.debugMode, proxy := cfg.proxy,
      codeHardeningThreshold := cfg.codeHardeningThreshold,
      useProfilingData := cfg.useProfilingData,
      bail := if cfg.werror = .undef then none else some cfg.werror }

/-- A value that is truthy and not a boolean — the shape of a source-map
identifier as opposed to the source-map toggle. -/
def isTruthyNonBool (v : JSVal) : Bool :=
  truthy v && (match v with | .bool _ => false | _ => true)

lemma truthy_ne_undef {v : JSVal} (h : truthy v = true) : v ≠ JSVal.undef := by
  intro hv
  subst hv
  simp [truthy] at h

lemma checkVersion_ok {c c2 : Config} (h : checkVersion c = .ok c2) : c2 = c := by
  unfold checkVersion at h
  split at h
  · exact Except.noConfusion h
  · exact (Except.ok.inj h).symm

lemma resolveConfig_ok {fl : Flags} {c d c2 : Config}
    (h : resolveConfig fl c d = .ok c2) :
    ∃ c1, mergeConfig fl c = .ok c1 ∧ checkVersion c1 = .ok c1 ∧
      c2 = applyDefaults c1 d := by
  unfold resolveConfig at h
  split at h
  · exact Except.noConfusion h
  · next c1 hm =>
    split at h
    · exact Except.noConfusion h
    · next c1b hv =>
      have hb : c1b = c1 := checkVersion_ok hv
      subst hb
      exact ⟨c1b, hm, hv, (Except.ok.inj h).symm⟩

lemma mergeConfig_fields {fl : Flags} {c c1 : Config}
    (h : mergeConfig fl c = .ok c1) :
    c1.host = jsOr (optJS fl.host) c.host ∧
    c1.protocol = jsOr (optJS fl.protocol) c.protocol ∧
    c1.port = mergePort (optJS fl.port) c.port ∧
    c1.useRecommendedOrder = mergeBoolFlag (optJS fl.recommendedOrder) c.useRecommendedOrder ∧
    c1.tolerateMinification = mergeBoolFlag (optJS fl.tolerateMinification) c.tolerateMinification ∧
    c1.werror = mergeBoolFlag (optJS fl.werror) c.werror ∧
    c1.useProfilingData = mergeBoolFlag (optJS fl.useProfilingData) c.useProfilingData ∧
    c1.jscramblerVersion = jsOr (optJS fl.jscramblerVersion) c.jscramblerVersion := by
  unfold mergeConfig at h
  split at h
  · exact Except.noConfusion h
  · rw [← Except.ok.inj h]
    exact ⟨rfl, rfl, rfl, rfl, rfl, rfl, rfl, rfl⟩

/-- C1 (amended): for a simple scalar field with flag value `F`, config-file
value `C` and built-in default `D`, the resolved value is `F` when `F` is
truthy, else `C` when `C` is defined, else `D`; the default layer fills only
fields the merged flag/config object holds as `undefined`, so it never
overrides a falsy-but-present config-file value. The `host` and `protocol`
fields of the full pipeline follow exactly this rule. -/
theorem c1_scalar_precedence (F C D : JSVal) (fl : Flags) (c d c2 : Config)
    (hres : resolveConfig fl c d = .ok c2) :
    (truthy F = true → mergeScalar F C D = F) ∧
    (truthy F = false → C ≠ JSVal.undef → mergeScalar F C D = C) ∧
    (truthy F = false → C = JSVal.undef → mergeScalar F C D = D) ∧
    c2.host = mergeScalar (optJS fl.host) c.host d.host ∧
    c2.protocol = mergeScalar (optJS fl.protocol) c.protocol d.protocol := by
  obtain ⟨c1, hm, _, hc2⟩ := resolveConfig_ok hres
  obtain ⟨hhost, hproto, _⟩ := mergeConfig_fields hm
  refine ⟨?_, ?_, ?_, ?_, ?_⟩
  · intro h
    simp [mergeScalar, jsOr, defaultsField, h, truthy_ne_undef h]
  · intro h h2
    simp [mergeScalar, jsOr, defaultsField, h, h2]
  · intro h h2
    simp [mergeScalar, jsOr, defaultsField, h, h2]
  · rw [hc2]
    show defaultsField c1.host d.host = _
    rw [hhost]
    rfl
  · rw [hc2]
    show defaultsField c1.protocol d.protocol = _
    rw [hproto]
    rfl

/-- C1 counterexample: the flag value `""` is defined (not `undefined`), yet
the resolved value is the config-file value `"x"`, not the flag value — the
flag layer tests truthiness, not definedness. -/
theorem c1_counterexample :
    JSVal.str "" ≠ JSVal.undef ∧
    mergeScalar (JSVal.str "") (JSVal.str "x") (JSVal.str "d") = JSVal.str "x" ∧
    JSVal.str "x" ≠ JSVal.str "" := by
  refine ⟨by decide, by decide, by decide⟩

/-- C1 witness: the amended precedence evaluated at concrete values. -/
theorem c1_scalar_precedence_witness :
    mergeScalar (JSVal.str "flag") (JSVal.str "conf") (JSVal.str "def") =
      JSVal.str "flag" :=
  (c1_scalar_precedence (JSVal.str "flag") (JSVal.str "conf") (JSVal.str "def")
    {} {} {} {} (by decide)).1 (by decide)

lemma globMatches_nil (fs : String → List String) : globMatches fs [] = [] := rfl

lemma globMatches_cons (fs : String → List String) (p : String) (rest : List String) :
    globMatches fs (p :: rest) = fs p ++ globMatches fs rest := by
  simp [globMatches]

lemma globLoop_append (fs : String → List String) (w : Bool) (l : Nat) :
    ∀ (ps acc L : List String),
      (1 < l → ∀ p ∈ ps, extname p ≠ ".zip") →
      globLoop fs w l ps acc = .ok L → L = acc ++ globMatches fs ps := by
  intro ps
  induction ps with
  | nil =>
    intro acc L _ h
    simp only [globLoop] at h
    simp [globMatches, ← Except.ok.inj h]
  | cons p rest ih =>
    intro acc L hz h
    have hnz : ¬(extname p = ".zip" ∧ 1 < l) := by
      rintro ⟨h1, h2⟩
      exact hz h2 p (List.mem_cons_self p rest) h1
    simp only [globLoop] at h
    rw [if_neg hnz] at h
    by_cases hw : (w : Prop) ∧ (fs p).length = 0
    · rw [if_pos hw] at h
      exact Except.noConfusion h
    · rw [if_neg hw] at h
      have := ih (acc ++ fs p) L (fun hl q hq => hz hl q (List.mem_cons_of_mem p hq)) h
      rw [this, globMatches_cons, List.append_assoc]

lemma globLoop_noWerror (fs : String → List String) (l : Nat) :
    ∀ (ps acc : List String),
      (1 < l → ∀ p ∈ ps, extname p ≠ ".zip") →
      globLoop fs false l ps acc = .ok (acc ++ globMatches fs ps) := by
  intro ps
  induction ps with
  | nil =>
    intro acc _
    simp [globLoop, globMatches]
  | cons p rest ih =>
    intro acc hz
    have hnz : ¬(extname p = ".zip" ∧ 1 < l) := by
      rintro ⟨h1, h2⟩
      exact hz h2 p (List.mem_cons_self p rest) h1
    simp only [globLoop]
    rw [if_neg hnz, if_neg (by simp)]
    rw [ih (acc ++ fs p) (fun hl q hq => hz hl q (List.mem_cons_of_mem p hq))]
    rw [globMatches_cons, List.append_assoc]

lemma resolveFilesSrc_noWerror (fs : String → List String) (ps : List String)
    (hz : 1 < ps.length → ∀ p ∈ ps, extname p ≠ ".zip") :
    resolveFilesSrc fs false ps =
      if globMatches fs ps = [] then .error .noFilesMatched
      else .ok (globMatches fs ps) := by
  unfold resolveFilesSrc
  rw [globLoop_noWerror fs ps.length ps [] hz]
  simp [List.length_eq_zero]

/-- C3: for a non-empty supplied pattern list (with the archive case, which is
C5's, excluded), any successfully resolved `filesSrc` is the flat,
order-preserving, de-duplication-free concatenation of each pattern's matches
in pattern order; when that concatenation is empty and `werror` is disabled
the process still fails fatally with the "No files matched." error and exit
code 1; and when no patterns were supplied at all, resolution is skipped and
`filesSrc` stays unset. -/
theorem c3_filesSrc_concatenation (fs : String → List String) (w : Bool)
    (ps : List String) (_hne : ps ≠ [])
    (hz : 1 < ps.length → ∀ p ∈ ps, extname p ≠ ".zip") :
    (∀ L, resolveFilesSrc fs w ps = .ok L → L = globMatches fs ps) ∧
    (w = false → globMatches fs ps = [] →
      resolveFilesSrc fs w ps = .error .noFilesMatched ∧
      exitCode .noFilesMatched = 1) ∧
    fileResolution fs w [] JSVal.undef = .ok none ∧
    fileResolution fs w [] (JSVal.arr []) = .ok none := by
  refine ⟨?_, ?_, rfl, rfl⟩
  · intro L h
    unfold resolveFilesSrc at h
    split at h
    · exact Except.noConfusion h
    · next acc hg =>
      split at h
      · exact Except.noConfusion h
      · have hacc := globLoop_append fs w ps.length ps [] acc hz hg
        rw [← Except.ok.inj h, hacc, List.nil_append]
  · intro hw hempty
    subst hw
    rw [resolveFilesSrc_noWerror fs ps hz, if_pos hempty]
    exact ⟨rfl, rfl⟩

/-- C3 witness: a single pattern matching nothing, with `werror` disabled, is
fatal with the "No files matched." error. -/
theorem c3_filesSrc_concatenation_witness :
    resolveFilesSrc (fun _ => []) false ["src"] = .error .noFilesMatched ∧
    exitCode .noFilesMatched = 1 :=
  (c3_filesSrc_concatenation (fun _ => []) false ["src"] (by decide)
    (by decide)).2.1 rfl (by decide)

lemma globLoop_firstEmpty (fs : String → List String) (l : Nat) :
    ∀ (ps acc : List String) (q : String),
      (1 < l → ∀ p ∈ ps, extname p ≠ ".zip") →
      ps.find? (fun p => (fs p).isEmpty) = some q →
      globLoop fs true l ps acc = .error (.patternNoMatch q) := by
  intro ps
  induction ps with
  | nil =>
    intro acc q _ hf
    simp at hf
  | cons p rest ih =>
    intro acc q hz hf
    have hnz : ¬(extname p = ".zip" ∧ 1 < l) := by
      rintro ⟨h1, h2⟩
      exact hz h2 p (List.mem_cons_self p rest) h1
    simp only [globLoop]
    rw [if_neg hnz]
    cases hp : (fs p).isEmpty with
    | true =>
      have hfp : fs p = [] := List.isEmpty_iff.mp hp
      simp only [List.find?, hp] at hf
      have hq : p = q := by simpa using hf
      subst hq
      rw [if_pos ⟨trivial, by simp [hfp]⟩]
    | false =>
      simp only [List.find?, hp] at hf
      have hcond : ¬(True ∧ (fs p).length = 0) := by
        rintro ⟨_, h0⟩
        rw [List.length_eq_zero] at h0
        simp [h0] at hp
      rw [if_neg hcond]
      exact ih (acc ++ fs p) q (fun hl q2 hq2 => hz hl q2 (List.mem_cons_of_mem p hq2)) hf

lemma globMatches_filter (fs : String → List String) :
    ∀ ps : List String,
      globMatches fs (ps.filter (fun p => !(fs p).isEmpty)) = globMatches fs ps := by
  intro ps
  induction ps with
  | nil => rfl
  | cons p rest ih =>
    by_cases hp : (fs p).isEmpty
    · have hfp : fs p = [] := List.isEmpty_iff.mp hp
      rw [List.filter_cons_of_neg (by simp [hp]), globMatches_cons, ih, hfp,
        List.nil_append]
    · rw [List.filter_cons_of_pos (by simp [hp]), globMatches_cons, ih,
        globMatches_cons]

/-- C4: per-pattern strict-match policy. With `werror` enabled, the first
pattern that matches zero files makes resolution fail fatally naming exactly
that pattern (exit code 1); with `werror` disabled, zero-match patterns are
skipped and resolution continues with the remaining patterns' matches — the
result is the same as resolving only the patterns that match something. The
archive case is C5's and is excluded here. -/
theorem c4_werror_per_pattern (fs : String → List String) (w : Bool)
    (ps : List String)
    (hz : 1 < ps.length → ∀ p ∈ ps, extname p ≠ ".zip") :
    (∀ q, ps.find? (fun p => (fs p).isEmpty) = some q →
      resolveFilesSrc fs true ps = .error (.patternNoMatch q) ∧
      exitCode (.patternNoMatch q) = 1) ∧
    (w = false → resolveFilesSrc fs w ps =
      resolveFilesSrc fs w (ps.filter (fun p => !(fs p).isEmpty))) := by
  constructor
  · intro q hf
    refine ⟨?_, rfl⟩
    unfold resolveFilesSrc
    rw [globLoop_firstEmpty fs ps.length ps [] q hz hf]
  · intro hw
    subst hw
    have hz2 : 1 < (ps.filter (fun p => !(fs p).isEmpty)).length →
        ∀ p ∈ ps.filter (fun p => !(fs p).isEmpty), extname p ≠ ".zip" := by
      intro hl q hq
      exact hz (lt_of_lt_of_le hl (List.length_filter_le _ ps))
        q (List.mem_of_mem_filter hq)
    rw [resolveFilesSrc_noWerror fs ps hz, resolveFilesSrc_noWerror fs _ hz2,
      globMatches_filter]

/-- C4 witness: the spec's example — `src/*.js` matches two files, `lib/*.js`
matches none; with `werror` the failure names `lib/*.js`, without it the
zero-match pattern is dropped and resolution continues. -/
theorem c4_werror_per_pattern_witness :
    (resolveFilesSrc (fun p => if p = "src/*.js" then ["src/a.js", "src/b.js"] else [])
      true ["src/*.js", "lib/*.js"] = .error (.patternNoMatch "lib/*.js")) ∧
    (resolveFilesSrc (fun p => if p = "src/*.js" then ["src/a.js", "src/b.js"] else [])
      false ["src/*.js", "lib/*.js"] =
     resolveFilesSrc (fun p => if p = "src/*.js" then ["src/a.js", "src/b.js"] else [])
      false (["src/*.js", "lib/*.js"].filter
        (fun p => !((if p = "src/*.js" then ["src/a.js", "src/b.js"] else []) : List String).isEmpty))) :=
  ⟨((c4_werror_per_pattern _ true _ (by decide)).1 "lib/*.js" (by decide)).1,
   (c4_werror_per_pattern _ false _ (by decide)).2 rfl⟩

lemma globLoop_zipErrors (fs : String → List String) (w : Bool) (l : Nat)
    (hl : 1 < l) :
    ∀ (ps acc : List String), (∃ p ∈ ps, extname p = ".zip") →
      ∃ e, globLoop fs w l ps acc = .error e := by
  intro ps
  induction ps with
  | nil =>
    rintro acc ⟨p, hp, _⟩
    exact absurd hp (List.not_mem_nil p)
  | cons p rest ih =>
    rintro acc ⟨q, hq, hqzip⟩
    simp only [globLoop]
    by_cases hz : extname p = ".zip" ∧ 1 < l
    · rw [if_pos hz]
      exact ⟨.zipCombined, rfl⟩
    · rw [if_neg hz]
      have hpz : extname p ≠ ".zip" := fun hh => hz ⟨hh, hl⟩
      have hqrest : q ∈ rest := by
        rcases List.mem_cons.mp hq with h | h
        · exact absurd (h ▸ hqzip) hpz
        · exact h
      by_cases hw : (w : Prop) ∧ (fs p).length = 0
      · rw [if_pos hw]
        exact ⟨.patternNoMatch p, rfl⟩
      · rw [if_neg hw]
        exact ih (acc ++ fs p) ⟨q, hqrest, hqzip⟩

/-- C5: a pattern list that contains a `.zip` pattern together with at least
one other pattern (length greater than one) always fails fatally with exit
code 1, whatever the `werror` setting. -/
theorem c5_zip_exclusivity (fs : String → List String) (w : Bool)
    (ps : List String) (hl : 1 < ps.length)
    (hzip : ∃ p ∈ ps, extname p = ".zip") :
    ∃ e, resolveFilesSrc fs w ps = .error e ∧ exitCode e = 1 := by
  obtain ⟨e, he⟩ := globLoop_zipErrors fs w ps.length hl ps [] hzip
  refine ⟨e, ?_, rfl⟩
  unfold resolveFilesSrc
  rw [he]

/-- C5 witness: the spec's example `["bundle.zip", "src/*.js"]` is fatal. -/
theorem c5_zip_exclusivity_witness :
    ∃ e, resolveFilesSrc (fun _ => ["f.js"]) false ["bundle.zip", "src/*.js"] =
      .error e ∧ exitCode e = 1 :=
  c5_zip_exclusivity _ false _ (by decide) ⟨"bundle.zip", by decide, by decide⟩

/-- C6: for each boolean-flag field (`useRecommendedOrder`,
`tolerateMinification`, `werror`, `useProfilingData`), a supplied flag —
whose value `validateBool` has normalized — resolves to `true` exactly when
the normalized string is not literally `"false"`, and an absent flag leaves
the config-file value untouched (tri-state). The four fields of the merge all
follow `mergeBoolFlag`. -/
theorem c6_bool_flags (name r v : String) (c : JSVal) (fl : Flags)
    (cfg cfg2 : Config)
    (hval : validateBool name r = .ok v)
    (hmerge : mergeConfig fl cfg = .ok cfg2) :
    (v ≠ "false" → mergeBoolFlag (JSVal.str v) c = JSVal.bool true) ∧
    (v = "false" → mergeBoolFlag (JSVal.str v) c = JSVal.bool false) ∧
    mergeBoolFlag JSVal.undef c = c ∧
    cfg2.useRecommendedOrder =
      mergeBoolFlag (optJS fl.recommendedOrder) cfg.useRecommendedOrder ∧
    cfg2.tolerateMinification =
      mergeBoolFlag (optJS fl.tolerateMinification) cfg.tolerateMinification ∧
    cfg2.werror = mergeBoolFlag (optJS fl.werror) cfg.werror ∧
    cfg2.useProfilingData =
      mergeBoolFlag (optJS fl.useProfilingData) cfg.useProfilingData := by
  obtain ⟨_, _, _, hro, htm, hwe, hpd, _⟩ := mergeConfig_fields hmerge
  have hv : v = "true" ∨ v = "false" := by
    unfold validateBool at hval
    split at hval
    · next hcond =>
      have hveq : v = lowerStr r := (Except.ok.inj hval).symm
      subst hveq
      simpa using hcond
    · exact Except.noConfusion hval
  refine ⟨?_, ?_, ?_, hro, htm, hwe, hpd⟩
  · intro hne
    rcases hv with h | h
    · subst h
      unfold mergeBoolFlag
      rw [if_pos (by decide)]
      decide
    · exact absurd h hne
  · intro he
    subst he
    unfold mergeBoolFlag
    rw [if_pos (by decide)]
    decide
  · unfold mergeBoolFlag
    rw [if_neg (by decide)]

/-- C6 witness: the flag string `FALSE` normalizes to `"false"` and resolves
the field to `false`, whatever the config-file value held. -/
theorem c6_bool_flags_witness :
    mergeBoolFlag (JSVal.str "false") (JSVal.str "cfg") = JSVal.bool false :=
  (c6_bool_flags "werror" "FALSE" "false" (JSVal.str "cfg") {} {} {}
    (by decide) (by decide)).2.1 rfl

/-- C7 (amended): a flag value of the numeral `0` resolves to `0`, not
`undefined`; when the flag was never supplied, the resolved value is the
validated parse of the config-file value when one is present and truthy, and
`undefined` otherwise (a falsy config-file value is dropped, see C10). -/
theorem c7_threshold_zero (cv : JSVal) :
    validateCodeHardeningThreshold (JSVal.str "0") = .ok 0 ∧
    mergeCHT (some 0) cv = .ok (JSVal.num 0) ∧
    (truthy cv = true → mergeCHT none cv =
      (validateCodeHardeningThreshold cv).map JSVal.num) ∧
    (truthy cv = false → mergeCHT none cv = .ok JSVal.undef) := by
  refine ⟨by decide, rfl, ?_, ?_⟩
  · intro h
    simp only [mergeCHT]
    rw [if_pos h]
  · intro h
    simp only [mergeCHT]
    rw [if_neg (by simp [h])]

/-- C7 counterexample: a config-file `codeHardeningThreshold` of `0` with no
flag resolves to `undefined`, even though its validated parse is `0` — the
config-file layer tests truthiness, so the claim's "validated parse of the
config-file value when one is present" fails at the present value `0`. -/
theorem c7_threshold_zero_counterexample :
    mergeCHT none (JSVal.num 0) = .ok JSVal.undef ∧
    validateCodeHardeningThreshold (JSVal.num 0) = .ok 0 ∧
    JSVal.undef ≠ JSVal.num 0 := by
  refine ⟨by decide, by decide, by decide⟩

/-- C7 witness: a truthy config-file value is validated and honored when the
flag is absent. -/
theorem c7_threshold_zero_witness :
    mergeCHT none (JSVal.str "200kb") =
      (validateCodeHardeningThreshold (JSVal.str "200kb")).map JSVal.num :=
  (c7_threshold_zero (JSVal.str "200kb")).2.2.1 (by decide)

/-- C10: when the `--code-hardening-threshold` flag is absent and the config
file supplies a falsy `codeHardeningThreshold` (such as the number `0` or the
empty string), the resolved value is `undefined` — the file-supplied zero is
silently dropped — unlike a flag-supplied `0`, which is honored. -/
theorem c10_falsy_config_threshold (cv : JSVal) (h : truthy cv = false) :
    mergeCHT none cv = .ok JSVal.undef ∧
    mergeCHT (some 0) cv = .ok (JSVal.num 0) := by
  refine ⟨?_, rfl⟩
  simp only [mergeCHT]
  rw [if_neg (by simp [h])]

/-- C10 witness: the two falsy config-file values named by the claim. -/
theorem c10_falsy_config_threshold_witness :
    truthy (JSVal.num 0) = false ∧ truthy (JSVal.str "") = false ∧
    mergeCHT none (JSVal.num 0) = .ok JSVal.undef ∧
    mergeCHT none (JSVal.str "") = .ok JSVal.undef :=
  ⟨by decide, by decide, (c10_falsy_config_threshold (JSVal.num 0) (by decide)).1,
   (c10_falsy_config_threshold (JSVal.str "") (by decide)).1⟩

lemma parseIntDigits_shape (s : String) :
    parseIntDigits s = JSVal.nan ∨ ∃ n : Int, parseIntDigits s = JSVal.num n := by
  simp only [parseIntDigits]
  split
  · exact Or.inl rfl
  · exact Or.inr ⟨_, rfl⟩

lemma jsParseInt_shape (v : JSVal) :
    jsParseInt v = JSVal.nan ∨ ∃ n : Int, jsParseInt v = JSVal.num n :=
  parseIntDigits_shape _

/-- C9: the resolved `port` field, whenever it is truthy, is an integer:
the flag/config merge parses any truthy merged value with `parseInt`, a falsy
merged value (including the empty string, which is never handed to
`parseInt`) is kept falsy, and the default layer only fills `undefined` —
assuming, per the spec's data model, that the built-in default object's
`port` is an integer when present. -/
theorem c9_port_integer (f c d : JSVal)
    (hd : d = JSVal.undef ∨ ∃ n : Int, d = JSVal.num n) :
    (truthy (defaultsField (mergePort f c) d) = true →
      ∃ n : Int, defaultsField (mergePort f c) d = JSVal.num n) ∧
    mergePort JSVal.undef (JSVal.str "") = JSVal.str "" := by
  constructor
  · intro ht
    by_cases hp : truthy (jsOr f c) = true
    · have hmp : mergePort f c = jsParseInt (jsOr f c) := by
        unfold mergePort jsAnd
        rw [if_pos hp]
      rcases jsParseInt_shape (jsOr f c) with hn | ⟨n, hn⟩
      · rw [hmp, hn] at ht
        have hdf : defaultsField JSVal.nan d = JSVal.nan := by
          unfold defaultsField
          rw [if_neg (by decide)]
        rw [hdf] at ht
        exact absurd ht (by decide)
      · rw [hmp, hn]
        have hdf : defaultsField (JSVal.num n) d = JSVal.num n := by
          unfold defaultsField
          rw [if_neg (fun hh => JSVal.noConfusion hh)]
        rw [hdf]
        exact ⟨n, rfl⟩
    · have hmp : mergePort f c = jsOr f c := by
        unfold mergePort jsAnd
        rw [if_neg hp]
      rw [hmp] at ht ⊢
      by_cases hu : jsOr f c = JSVal.undef
      · rw [hu] at ht ⊢
        unfold defaultsField at ht ⊢
        rw [if_pos rfl] at ht ⊢
        rcases hd with h | ⟨n, h⟩
        · rw [h] at ht
          exact absurd ht (by decide)
        · exact ⟨n, h⟩
      · unfold defaultsField at ht
        rw [if_neg hu] at ht
        exact absurd ht hp
  · decide

/-- C9 witness: a flag-supplied `"8080"` resolves to the integer 8080. -/
theorem c9_port_integer_witness :
    ∃ n : Int, defaultsField (mergePort (JSVal.str "8080") JSVal.undef)
      JSVal.undef = JSVal.num n :=
  (c9_port_integer (JSVal.str "8080") JSVal.undef JSVal.undef
    (Or.inl rfl)).1 (by decide)

/-- C8 (amended): once the flag/config merge has produced a truthy
`jscramblerVersion`, the pipeline terminates fatally with exit code 1 unless
the value matches the version regex — `"5.2"`, `"stable"`, `"latest"` are
accepted while `"v5.2"` and `"5"` are rejected — and the check runs on the
merged value (after the flag/config merge, before the default layer); a
falsy merged value, such as a config-file empty string, escapes the check
(see the counterexample). -/
theorem c8_version_check (fl : Flags) (c d c1 : Config)
    (hm : mergeConfig fl c = .ok c1) :
    (truthy c1.jscramblerVersion = true → versionOk c1.jscramblerVersion = false →
      resolveConfig fl c d = .error .invalidVersion ∧
      exitCode .invalidVersion = 1) ∧
    (∀ c2, resolveConfig fl c d = .ok c2 → truthy c1.jscramblerVersion = true →
      versionOk c1.jscramblerVersion = true) ∧
    c1.jscramblerVersion = jsOr (optJS fl.jscramblerVersion) c.jscramblerVersion ∧
    versionOk (JSVal.str "5.2") = true ∧ versionOk (JSVal.str "stable") = true ∧
    versionOk (JSVal.str "latest") = true ∧ versionOk (JSVal.str "v5.2") = false ∧
    versionOk (JSVal.str "5") = false := by
  obtain ⟨_, _, _, _, _, _, _, hver⟩ := mergeConfig_fields hm
  refine ⟨?_, ?_, hver, by decide, by decide, by decide, by decide, by decide⟩
  · intro ht hv
    refine ⟨?_, rfl⟩
    have hcv : checkVersion c1 = .error .invalidVersion := by
      unfold checkVersion
      rw [if_pos (by rw [ht, hv]; rfl)]
    simp only [resolveConfig, hm, hcv]
  · intro c2 hres ht
    obtain ⟨c1b, hmb, hcvb, _⟩ := resolveConfig_ok hres
    rw [hm] at hmb
    have hbe : c1 = c1b := Except.ok.inj hmb
    subst hbe
    unfold checkVersion at hcvb
    split at hcvb
    · exact Except.noConfusion hcvb
    · next hcond =>
      cases hvk : versionOk c1.jscramblerVersion with
      | false => exact absurd (by rw [ht, hvk]; rfl) hcond
      | true => rfl

/-- C8 counterexample: a config file supplying `jscramblerVersion: ""` — a
value that does not match the version regex — resolves without any fatal
error, because the post-merge check only fires on truthy values. -/
theorem c8_version_check_counterexample :
    resolveConfig ({} : Flags) { jscramblerVersion := JSVal.str "" }
      ({} : Config) = .ok { jscramblerVersion := JSVal.str "" } ∧
    versionOk (JSVal.str "") = false := by
  refine ⟨by decide, by decide⟩

/-- C8 witness: a flag-supplied `"v5.2"` is fatal with the version error. -/
theorem c8_version_check_witness :
    resolveConfig { jscramblerVersion := some "v5.2" } ({} : Config)
      ({} : Config) = .error .invalidVersion :=
  ((c8_version_check { jscramblerVersion := some "v5.2" } {} {}
    { jscramblerVersion := JSVal.str "v5.2" } (by decide)).1
    (by decide) (by decide)).1

/-- C2 (amended): exactly one of the two remote requests is built per
invocation — the source-maps download request exactly when the `-m` flag
value is truthy. The download request carries no `applicationId`, `params`
or protection-tuning fields. When the flag is absent, the protect request's
`sourceMaps` field is the config object's value (defaulting to `false` only
when that value is `undefined`), so the request carries a truthy non-boolean
source-map identifier only if the config file itself supplies one (see the
counterexample for that leak). -/
theorem c2_dispatch_exclusivity (sm : JSVal) (cfg : Config) (fsrc ps : JSVal) :
    ((∃ r, dispatch sm cfg fsrc ps = .download r) ↔ truthy sm = true) ∧
    (truthy sm = true →
      (dispatch sm cfg fsrc ps).get .applicationId = none ∧
      (dispatch sm cfg fsrc ps).get .params = none ∧
      (dispatch sm cfg fsrc ps).get .randomizationSeed = none ∧
      (dispatch sm cfg fsrc ps).get .codeHardeningThreshold = none ∧
      (dispatch sm cfg fsrc ps).get .useRecommendedOrder = none ∧
      (dispatch sm cfg fsrc ps).get .tolerateMinification = none ∧
      (dispatch sm cfg fsrc ps).get .useProfilingData = none ∧
      (dispatch sm cfg fsrc ps).get .jscramblerVersion = none ∧
      (dispatch sm cfg fsrc ps).get .sourceMaps = none ∧
      (dispatch sm cfg fsrc ps).get .protectionId = some sm) ∧
    (truthy sm = false →
      (dispatch sm cfg fsrc ps).get .protectionId = none ∧
      (dispatch sm cfg fsrc ps).get .sourceMaps =
        some (if cfg.sourceMaps = JSVal.undef then JSVal.bool false
          else cfg.sourceMaps) ∧
      (isTruthyNonBool cfg.sourceMaps = false →
        ∀ v, (dispatch sm cfg fsrc ps).get .sourceMaps = some v →
          isTruthyNonBool v = false)) := by
  by_cases hsm : truthy sm = true
  · refine ⟨⟨fun _ => hsm, fun _ => ?_⟩, fun _ => ?_,
      fun hf => absurd hsm (by simp [hf])⟩
    · rcases hh : dispatch sm cfg fsrc ps with r | r
      · exact ⟨r, rfl⟩
      · exfalso
        unfold dispatch at hh
        rw [if_pos hsm] at hh
        exact Request.noConfusion hh
    · unfold dispatch
      rw [if_pos hsm]
      exact ⟨rfl, rfl, rfl, rfl, rfl, rfl, rfl, rfl, rfl, rfl⟩
  · refine ⟨⟨fun ⟨r, hr⟩ => ?_, fun ht => absurd ht hsm⟩,
      fun ht => absurd ht hsm, fun _ => ?_⟩
    · unfold dispatch at hr
      rw [if_neg hsm] at hr
      exact Request.noConfusion hr
    · unfold dispatch
      rw [if_neg hsm]
      refine ⟨rfl, rfl, ?_⟩
      intro hnb v hv
      have hv2 : (if cfg.sourceMaps = JSVal.undef then JSVal.bool false
          else cfg.sourceMaps) = v := Option.some.inj hv
      by_cases hu : cfg.sourceMaps = JSVal.undef
      · rw [if_pos hu] at hv2
        rw [← hv2]
        decide
      · rw [if_neg hu] at hv2
        rw [← hv2]
        exact hnb

/-- C2 counterexample: with the `-m` flag absent but a config file supplying
`sourceMaps: "abc"`, the protect-and-download request is assembled with a
truthy non-boolean source-map identifier alongside `applicationId` — the
claimed exclusivity of the two request shapes fails on such a config. -/
theorem c2_dispatch_exclusivity_counterexample :
    (dispatch JSVal.undef
        { sourceMaps := JSVal.str "abc", applicationId := JSVal.str "app" }
        JSVal.undef JSVal.undef).get .sourceMaps = some (JSVal.str "abc") ∧
    isTruthyNonBool (JSVal.str "abc") = true ∧
    (dispatch JSVal.undef
        { sourceMaps := JSVal.str "abc", applicationId := JSVal.str "app" }
        JSVal.undef JSVal.undef).get .applicationId = some (JSVal.str "app") := by
  refine ⟨by decide, by decide, by decide⟩

/-- C2 witness: a truthy source-map flag builds the download request, which
carries the protection id and none of the protect-only fields. -/
theorem c2_dispatch_exclusivity_witness :
    (dispatch (JSVal.str "pid") ({} : Config) JSVal.undef JSVal.undef).get
      .applicationId = none ∧
    (dispatch (JSVal.str "pid") ({} : Config) JSVal.undef JSVal.undef).get
      .protectionId = some (JSVal.str "pid") := by
  have h := (c2_dispatch_exclusivity (JSVal.str "pid") {} JSVal.undef
    JSVal.undef).2.1 (by decide)
  exact ⟨h.1, h.2.2.2.2.2.2.2.2.2⟩
